import Mathlib

/-!
Verification development for `summary_proto.py`, a script that reads
terraform plan artifacts (zip containers holding a protobuf-serialized
`Plan` message), classifies each resource change by its action kind,
aggregates per-account create/update/delete tallies, warns on drift
observations that would change counts, and sorts the resulting summary.

The Python source is embedded shallowly: in-place mutation of the
tally dict together with `sys.exit(1)` becomes explicit state passing
(`StepResult`), log warnings become an explicit list, and the
module-level protobuf message `plan` is threaded through
`read_plan_file` as an explicit before/after value.
-/

namespace TfSummary

/-- Action kinds of the external plan format (`planfile_pb2.Action`).
The Python `match` names six values; every other enum value falls into
the default case, modelled here by the catch-all constructor
`Action.other` carrying the raw integer value. -/
inductive Action
  | NOOP
  | CREATE
  | UPDATE
  | DELETE
  | DELETE_THEN_CREATE
  | CREATE_THEN_DELETE
  | other (code : Nat)
deriving DecidableEq

/-- The `change` submessage of a resource change; only its `action`
field is read by the script. -/
structure Change where
  action : Action
deriving DecidableEq

/-- One entry of `resource_changes` or `resource_drift`; the script
accesses `resource.change.action`. -/
structure ResourceInstanceChange where
  change : Change
deriving DecidableEq

/-- The per-account summary dict
`{"account": ..., "create": 0, "update": 0, "delete": 0}`. -/
structure Tally where
  account : String
  create : Nat
  update : Nat
  delete : Nat
deriving DecidableEq

/-- Warnings emitted through `logger.warning`: the
`CREATE_THEN_DELETE action encountered` message from `handle_action`,
and the `{account_marker} had drift, might not result in change`
message from `warn_if_drift_changes`. -/
inductive LogWarning
  | combinedAction
  | drift (account : String)
deriving DecidableEq

/-- The distinct fatal conditions on which the script calls
`logger.error(...)` followed by `sys.exit(1)`. -/
inductive FatalErr
  | malformedContainer
  | unknownAction (a : Action)
  | unsupportedVersion (v : Nat)
  | unsupportedFeature
deriving DecidableEq

/-- How a run of the script can stop abnormally: a handled fatal
condition (`sys.exit(1)`), or an exception that no `except` clause
catches and that propagates out of `read_plan_file`. -/
inductive RunError
  | exit1 (e : FatalErr)
  | uncaughtKeyError
deriving DecidableEq

/-- Result of a mutating step: the tally after the step, the warnings
logged during it, and `some e` when the step terminated the process. -/
structure StepResult where
  summary : Tally
  warnings : List LogWarning
  exit : Option RunError
deriving DecidableEq

/-- Embedding of `handle_action(action, account_summary)`
(src/summary_proto.py lines 45-67): the `match` over the action enum.
An unrecognized value logs an error and exits the process before any
counter is touched. -/
def handle_action (action : Action) (account_summary : Tally) : StepResult :=
  match action with
  | .NOOP => ⟨account_summary, [], none⟩
  | .CREATE => ⟨{ account_summary with create := account_summary.create + 1 }, [], none⟩
  | .UPDATE => ⟨{ account_summary with update := account_summary.update + 1 }, [], none⟩
  | .DELETE => ⟨{ account_summary with delete := account_summary.delete + 1 }, [], none⟩
  | .DELETE_THEN_CREATE =>
      ⟨{ account_summary with delete := account_summary.delete + 1 }, [], none⟩
  | .CREATE_THEN_DELETE =>
      ⟨{ account_summary with delete := account_summary.delete + 1 },
        [LogWarning.combinedAction], none⟩
  | .other c =>
      ⟨account_summary, [],
        some (RunError.exit1 (FatalErr.unknownAction (Action.other c)))⟩

/-- Embedding of `record_changes(account_summary, resource_changes)`
(src/summary_proto.py lines 21-23): fold `handle_action` over the
sequence; a fatal step stops the whole run, so later elements are not
visited. -/
def record_changes (account_summary : Tally) :
    List ResourceInstanceChange → StepResult
  | [] => ⟨account_summary, [], none⟩
  | resource :: rest =>
    let step := handle_action resource.change.action account_summary
    match step.exit with
    | some e => ⟨step.summary, step.warnings, some e⟩
    | none =>
      let tail := record_changes step.summary rest
      ⟨tail.summary, step.warnings ++ tail.warnings, tail.exit⟩

/-- The freshly initialized summary dict for an account marker. -/
def zero_tally (account_marker : String) : Tally :=
  { account := account_marker, create := 0, update := 0, delete := 0 }

/-- Loop body of `warn_if_drift_changes` (src/summary_proto.py lines
33-42): apply `handle_action` to the working tally; if any counter is
nonzero afterwards, log the drift warning and reset the working tally
to zero before continuing. -/
def drift_loop (account_marker : String) (drift_summary : Tally) :
    List ResourceInstanceChange → List LogWarning × Option RunError
  | [] => ([], none)
  | resource :: rest =>
    let step := handle_action resource.change.action drift_summary
    match step.exit with
    | some e => (step.warnings, some e)
    | none =>
      if step.summary.create > 0 ∨ step.summary.update > 0 ∨ step.summary.delete > 0 then
        let tail := drift_loop account_marker (zero_tally account_marker) rest
        (step.warnings ++ LogWarning.drift account_marker :: tail.1, tail.2)
      else
        let tail := drift_loop account_marker step.summary rest
        (step.warnings ++ tail.1, tail.2)

/-- Embedding of `warn_if_drift_changes(account_marker,
resource_changes)` (src/summary_proto.py lines 26-42): the working
tally is seeded at zero. The function only logs; it returns no tally. -/
def warn_if_drift_changes (account_marker : String)
    (resource_changes : List ResourceInstanceChange) :
    List LogWarning × Option RunError :=
  drift_loop account_marker (zero_tally account_marker) resource_changes

/-- The deserialized `Plan` message with the fields the script reads:
`version`, `resource_changes`, `resource_drift`, `deferred_changes`
(whose element type is irrelevant, only its length is tested). -/
structure Plan where
  version : Nat
  resource_changes : List ResourceInstanceChange
  resource_drift : List ResourceInstanceChange
  deferred_changes : List Unit
deriving DecidableEq

/-- The module-level `plan = planfile_pb2.Plan()` object in its
freshly constructed state: protobuf scalar fields default to zero and
repeated fields to empty. -/
def plan_init : Plan := ⟨0, [], [], []⟩

/-- What the script can observe about the artifact at `zip_path`
through `zipfile` and protobuf parsing: `zipfile.ZipFile` raises
`BadZipFile` when the file is not a valid archive;
`zip_file.open("tfplan")` raises `KeyError` when the archive has no
entry of that name; otherwise the entry's bytes parse into a `Plan`
message. -/
inductive Artifact
  | notAZip
  | zipMissingTfplan
  | zipWithTfplan (contents : Plan)
deriving DecidableEq

/-- Modelled from the spec: the protobuf runtime behind
`planfile_pb2` is not part of this repository. Its
`Message.ParseFromString` contract is clear-then-parse: the message is
emptied and refilled from the bytes, so nothing of the previous
contents of the module-level `plan` object survives a successful
parse. -/
def parse_from_string (_old : Plan) (parsed : Plan) : Plan := parsed

/-- Embedding of `read_plan_file(zip_path, account_marker)`
(src/summary_proto.py lines 127-156). The `try` block catches only
`zipfile.BadZipFile` (the `MalformedContainer` exit); a `KeyError`
from `zip_file.open("tfplan")` propagates unhandled. After a
successful parse into the module-level `plan`, the script validates
`version == 3`, then that `deferred_changes` is empty, then aggregates
`resource_changes` into a fresh tally and runs the drift pass on
`resource_drift`. Returns the module-level plan state after the call
together with the outcome. -/
def read_plan_file (plan_before : Plan) (zip_path : Artifact)
    (account_marker : String) :
    Plan × Except RunError (Tally × List LogWarning) :=
  match zip_path with
  | .notAZip =>
      (plan_before, Except.error (RunError.exit1 FatalErr.malformedContainer))
  | .zipMissingTfplan =>
      (plan_before, Except.error RunError.uncaughtKeyError)
  | .zipWithTfplan contents =>
    let plan := parse_from_string plan_before contents
    if plan.version ≠ 3 then
      (plan, Except.error (RunError.exit1 (FatalErr.unsupportedVersion plan.version)))
    else if plan.deferred_changes.length > 0 then
      (plan, Except.error (RunError.exit1 FatalErr.unsupportedFeature))
    else
      let change_summary := zero_tally account_marker
      let step := record_changes change_summary plan.resource_changes
      match step.exit with
      | some e => (plan, Except.error e)
      | none =>
        let drift := warn_if_drift_changes account_marker plan.resource_drift
        match drift.2 with
        | some e => (plan, Except.error e)
        | none => (plan, Except.ok (step.summary, step.warnings ++ drift.1))

/-- Sort key of the final report (src/summary_proto.py line 170):
`lambda x: (-x["delete"], -x["update"], -x["create"], x["account"])`.
The account string is compared as Python compares strings, code point
by code point, modelled by its character list. -/
def sort_key (x : Tally) : Int × Int × Int × List Char :=
  (-(x.delete : Int), -(x.update : Int), -(x.create : Int), x.account.data)

/-- Lexicographic strict order on sort keys, as Python orders tuples. -/
def key_lt (p q : Int × Int × Int × List Char) : Prop :=
  p.1 < q.1 ∨ (p.1 = q.1 ∧
    (p.2.1 < q.2.1 ∨ (p.2.1 = q.2.1 ∧
      (p.2.2.1 < q.2.2.1 ∨ (p.2.2.1 = q.2.2.1 ∧ p.2.2.2 < q.2.2.2)))))

instance : DecidableRel key_lt := fun p q => by
  unfold key_lt
  infer_instance

/-- Strict comparison between two tallies under the report's sort key. -/
def tally_lt (x y : Tally) : Prop := key_lt (sort_key x) (sort_key y)

instance : DecidableRel tally_lt := fun x y => by
  unfold tally_lt
  infer_instance

/-- Non-strict comparison used by the stable sort: strictly smaller
key, or equal keys (in which case Python's stable `sorted` keeps the
input order). -/
def tally_le (x y : Tally) : Prop := tally_lt x y ∨ sort_key x = sort_key y

instance : DecidableRel tally_le := fun x y => by
  unfold tally_le
  infer_instance

/-- Embedding of `sorted(summary, key=lambda x: (-x["delete"],
-x["update"], -x["create"], x["account"]))` (src/summary_proto.py line
170): Python's `sorted` is a stable ascending sort by key, realized
here by insertion sort with `tally_le`. -/
def summary_sort (summary : List Tally) : List Tally :=
  List.insertionSort tally_le summary

/-- An action the `match` in `handle_action` recognizes (any value
other than the six named ones hits the fatal default case). -/
def recognized : Action → Bool
  | .other _ => false
  | _ => true

/-- Actions whose classified effect increments `create`. -/
def adds_create : Action → Bool
  | .CREATE => true
  | _ => false

/-- Actions whose classified effect increments `update`. -/
def adds_update : Action → Bool
  | .UPDATE => true
  | _ => false

/-- Actions whose classified effect increments `delete`. -/
def adds_delete : Action → Bool
  | .DELETE => true
  | .DELETE_THEN_CREATE => true
  | .CREATE_THEN_DELETE => true
  | _ => false

/-- Actions whose classified effect is not `none` (any recognized
action other than `NOOP`, plus the unrecognized ones, which never
reach a counter anyway). -/
def effective : Action → Bool
  | .NOOP => false
  | _ => true

/-- Two tallies with the same four fields are equal. -/
theorem tally_eq_of_fields (x y : Tally) (ha : x.account = y.account)
    (hc : x.create = y.create) (hu : x.update = y.update)
    (hd : x.delete = y.delete) : x = y := by
  cases x
  cases y
  simp_all

/-- Characterization of `record_changes` on a sequence of recognized
actions: it never exits, it keeps the account label, and each counter
grows by exactly the number of elements whose action feeds it. -/
theorem record_changes_spec (t : Tally) (l : List ResourceInstanceChange)
    (h : ∀ r ∈ l, recognized r.change.action = true) :
    (record_changes t l).exit = none ∧
    (record_changes t l).summary.account = t.account ∧
    (record_changes t l).summary.create =
      t.create + l.countP (fun r => adds_create r.change.action) ∧
    (record_changes t l).summary.update =
      t.update + l.countP (fun r => adds_update r.change.action) ∧
    (record_changes t l).summary.delete =
      t.delete + l.countP (fun r => adds_delete r.change.action) := by
  induction l generalizing t with
  | nil => simp [record_changes]
  | cons r rest ih =>
    have hr : recognized r.change.action = true := h r (List.mem_cons_self r rest)
    have hrest : ∀ x ∈ rest, recognized x.change.action = true :=
      fun x hx => h x (List.mem_cons_of_mem r hx)
    cases hra : r.change.action with
    | other c =>
      rw [hra] at hr
      simp [recognized] at hr
    | NOOP =>
      have ih' := ih t hrest
      refine ⟨?_, ?_, ?_, ?_, ?_⟩ <;>
        simp [record_changes, hra, handle_action, List.countP_cons,
          adds_create, adds_update, adds_delete, ih'.1, ih'.2.1,
          ih'.2.2.1, ih'.2.2.2.1, ih'.2.2.2.2]
    | CREATE =>
      have ih' := ih { t with create := t.create + 1 } hrest
      refine ⟨?_, ?_, ?_, ?_, ?_⟩ <;>
        simp [record_changes, hra, handle_action, List.countP_cons,
          adds_create, adds_update, adds_delete, ih'.1, ih'.2.1,
          ih'.2.2.1, ih'.2.2.2.1, ih'.2.2.2.2] <;>
        omega
    | UPDATE =>
      have ih' := ih { t with update := t.update + 1 } hrest
      refine ⟨?_, ?_, ?_, ?_, ?_⟩ <;>
        simp [record_changes, hra, handle_action, List.countP_cons,
          adds_create, adds_update, adds_delete, ih'.1, ih'.2.1,
          ih'.2.2.1, ih'.2.2.2.1, ih'.2.2.2.2] <;>
        omega
    | DELETE =>
      have ih' := ih { t with delete := t.delete + 1 } hrest
      refine ⟨?_, ?_, ?_, ?_, ?_⟩ <;>
        simp [record_changes, hra, handle_action, List.countP_cons,
          adds_create, adds_update, adds_delete, ih'.1, ih'.2.1,
          ih'.2.2.1, ih'.2.2.2.1, ih'.2.2.2.2] <;>
        omega
    | DELETE_THEN_CREATE =>
      have ih' := ih { t with delete := t.delete + 1 } hrest
      refine ⟨?_, ?_, ?_, ?_, ?_⟩ <;>
        simp [record_changes, hra, handle_action, List.countP_cons,
          adds_create, adds_update, adds_delete, ih'.1, ih'.2.1,
          ih'.2.2.1, ih'.2.2.2.1, ih'.2.2.2.2] <;>
        omega
    | CREATE_THEN_DELETE =>
      have ih' := ih { t with delete := t.delete + 1 } hrest
      refine ⟨?_, ?_, ?_, ?_, ?_⟩ <;>
        simp [record_changes, hra, handle_action, List.countP_cons,
          adds_create, adds_update, adds_delete, ih'.1, ih'.2.1,
          ih'.2.2.1, ih'.2.2.2.1, ih'.2.2.2.2] <;>
        omega

/-- On recognized actions, the three counter classifications partition
the non-NOOP elements. -/
theorem count_partition (l : List ResourceInstanceChange)
    (h : ∀ r ∈ l, recognized r.change.action = true) :
    l.countP (fun r => adds_create r.change.action) +
      l.countP (fun r => adds_update r.change.action) +
      l.countP (fun r => adds_delete r.change.action) =
      l.countP (fun r => effective r.change.action) := by
  induction l with
  | nil => simp
  | cons r rest ih =>
    have hr : recognized r.change.action = true := h r (List.mem_cons_self r rest)
    have ih' := ih (fun x hx => h x (List.mem_cons_of_mem r hx))
    cases hra : r.change.action
    case other c =>
      rw [hra] at hr
      simp [recognized] at hr
    all_goals
      simp [List.countP_cons, hra, adds_create, adds_update, adds_delete,
        effective] at ih' ⊢ <;>
      omega

/-- `record_changes` runs to completion exactly when every action in
the sequence is recognized. -/
theorem record_changes_exit_none_iff (t : Tally) (l : List ResourceInstanceChange) :
    (record_changes t l).exit = none ↔
      ∀ r ∈ l, recognized r.change.action = true := by
  induction l generalizing t with
  | nil => simp [record_changes]
  | cons r rest ih =>
    cases hra : r.change.action
    case other c =>
      constructor
      · intro hc
        simp [record_changes, hra, handle_action] at hc
      · intro hall
        exact absurd (hall r (List.mem_cons_self r rest))
          (by rw [hra]; simp [recognized])
    all_goals
      simp only [record_changes, hra, handle_action]
      constructor
      · intro h2 x hx
        rcases List.mem_cons.mp hx with rfl | hx'
        · rw [hra]
          rfl
        · exact (ih _).mp h2 x hx'
      · intro hall
        exact (ih _).mpr (fun x hx => hall x (List.mem_cons_of_mem r hx))

/-- Characterization of the drift loop started (as
`warn_if_drift_changes` starts it) on the zero tally, over recognized
actions: it never exits, it logs exactly one drift warning per element
whose classified effect is non-none, and it logs nothing at all on an
all-NOOP sequence. -/
theorem drift_loop_zero_spec (m : String) (l : List ResourceInstanceChange)
    (h : ∀ r ∈ l, recognized r.change.action = true) :
    (drift_loop m (zero_tally m) l).2 = none ∧
    (drift_loop m (zero_tally m) l).1.count (LogWarning.drift m) =
      l.countP (fun r => effective r.change.action) ∧
    ((∀ r ∈ l, r.change.action = Action.NOOP) →
      (drift_loop m (zero_tally m) l).1 = []) := by
  induction l with
  | nil => simp [drift_loop]
  | cons r rest ih =>
    have hr : recognized r.change.action = true := h r (List.mem_cons_self r rest)
    obtain ⟨ih1, ih2, ih3⟩ := ih (fun x hx => h x (List.mem_cons_of_mem r hx))
    cases hra : r.change.action
    case other c =>
      rw [hra] at hr
      simp [recognized] at hr
    case NOOP =>
      refine ⟨?_, ?_, ?_⟩
      · simpa [drift_loop, hra, handle_action, zero_tally] using ih1
      · simp [drift_loop, hra, handle_action, zero_tally, List.countP_cons,
          List.count_cons, List.count_append, beq_iff_eq, effective] at ih2 ⊢ <;>
          omega
      · intro hall
        have hrest := fun x hx => hall x (List.mem_cons_of_mem r hx)
        simpa [drift_loop, hra, handle_action, zero_tally] using ih3 hrest
    all_goals
      refine ⟨?_, ?_, ?_⟩
      · simpa [drift_loop, hra, handle_action, zero_tally] using ih1
      · simp [drift_loop, hra, handle_action, zero_tally, List.countP_cons,
          List.count_cons, List.count_append, beq_iff_eq, effective] at ih2 ⊢ <;>
          omega
      · intro hall
        have := hall r (List.mem_cons_self r rest)
        rw [hra] at this
        exact absurd this (by simp)

/-- The drift loop runs to completion, from any working tally, exactly
when every action in the sequence is recognized. -/
theorem drift_loop_exit_none_iff (m : String) (t : Tally)
    (l : List ResourceInstanceChange) :
    (drift_loop m t l).2 = none ↔
      ∀ r ∈ l, recognized r.change.action = true := by
  induction l generalizing t with
  | nil => simp [drift_loop]
  | cons r rest ih =>
    cases hra : r.change.action
    case other c =>
      constructor
      · intro hc
        simp [drift_loop, hra, handle_action] at hc
      · intro hall
        exact absurd (hall r (List.mem_cons_self r rest))
          (by rw [hra]; simp [recognized])
    all_goals
      simp only [drift_loop, hra, handle_action]
      constructor
      · intro h2 x hx
        rcases List.mem_cons.mp hx with rfl | hx'
        · rw [hra]
          rfl
        · revert h2
          split <;> intro h2 <;> exact (ih _).mp h2 x hx'
      · intro hall
        split <;>
          exact (ih _).mpr (fun x hx => hall x (List.mem_cons_of_mem r hx))

/-- Lexicographic combination of a strict order on the first component
with one on the second, exactly as Python compares tuples. -/
def lexPair {α β : Type} (ra : α → α → Prop) (rb : β → β → Prop) :
    α × β → α × β → Prop :=
  fun p q => ra p.1 q.1 ∨ (p.1 = q.1 ∧ rb p.2 q.2)

/-- The sort key comparison is the threefold lexicographic nesting of
the component orders. -/
theorem key_lt_eq :
    key_lt = lexPair (· < ·) (lexPair (· < ·) (lexPair (· < ·) (· < ·))) := rfl

theorem lexPair_irrefl {α β : Type} (ra : α → α → Prop) (rb : β → β → Prop)
    (ha : ∀ x, ¬ ra x x) (hb : ∀ y, ¬ rb y y) :
    ∀ p, ¬ lexPair ra rb p p := by
  rintro p (h | ⟨-, h⟩)
  · exact ha _ h
  · exact hb _ h

theorem lexPair_trans {α β : Type} (ra : α → α → Prop) (rb : β → β → Prop)
    (ha : ∀ x y z, ra x y → ra y z → ra x z)
    (hb : ∀ x y z, rb x y → rb y z → rb x z) :
    ∀ p q r, lexPair ra rb p q → lexPair ra rb q r → lexPair ra rb p r := by
  rintro p q r (h1 | ⟨e1, h1⟩) (h2 | ⟨e2, h2⟩)
  · exact Or.inl (ha _ _ _ h1 h2)
  · exact Or.inl (e2 ▸ h1)
  · exact Or.inl (e1 ▸ h2)
  · exact Or.inr ⟨e1.trans e2, hb _ _ _ h1 h2⟩

theorem lexPair_trichotomy {α β : Type} (ra : α → α → Prop) (rb : β → β → Prop)
    (ha : ∀ x y, ra x y ∨ x = y ∨ ra y x)
    (hb : ∀ x y, rb x y ∨ x = y ∨ rb y x) :
    ∀ p q : α × β, lexPair ra rb p q ∨ p = q ∨ lexPair ra rb q p := by
  intro p q
  rcases ha p.1 q.1 with h | h | h
  · exact Or.inl (Or.inl h)
  · rcases hb p.2 q.2 with h2 | h2 | h2
    · exact Or.inl (Or.inr ⟨h, h2⟩)
    · exact Or.inr (Or.inl (Prod.ext h h2))
    · exact Or.inr (Or.inr (Or.inr ⟨h.symm, h2⟩))
  · exact Or.inr (Or.inr (Or.inl h))

theorem key_lt_irrefl (p : Int × Int × Int × List Char) : ¬ key_lt p p := by
  rw [key_lt_eq]
  exact lexPair_irrefl _ _ (fun x => lt_irrefl x)
    (lexPair_irrefl _ _ (fun x => lt_irrefl x)
      (lexPair_irrefl _ _ (fun x => lt_irrefl x) (fun y => lt_irrefl y))) p

theorem key_lt_trans {p q r : Int × Int × Int × List Char}
    (h1 : key_lt p q) (h2 : key_lt q r) : key_lt p r := by
  rw [key_lt_eq] at h1 h2 ⊢
  refine lexPair_trans _ _ ?_ ?_ p q r h1 h2
  · exact fun x y z hx hy => lt_trans hx hy
  · intro x y z hx hy
    refine lexPair_trans _ _ ?_ ?_ x y z hx hy
    · exact fun a b c ha hb => lt_trans ha hb
    · intro a b c ha hb
      refine lexPair_trans _ _ ?_ ?_ a b c ha hb
      · exact fun u v s hu hv => lt_trans hu hv
      · exact fun u v s hu hv => lt_trans hu hv

theorem key_lt_trichotomy (p q : Int × Int × Int × List Char) :
    key_lt p q ∨ p = q ∨ key_lt q p := by
  rw [key_lt_eq]
  exact lexPair_trichotomy _ _ (fun x y => lt_trichotomy x y)
    (lexPair_trichotomy _ _ (fun x y => lt_trichotomy x y)
      (lexPair_trichotomy _ _ (fun x y => lt_trichotomy x y)
        (fun x y => lt_trichotomy x y))) p q

/-- A success of `read_plan_file` carries the tally that
`record_changes` builds from `resource_changes` alone. -/
theorem read_plan_ok_elim (g p : Plan) (m : String) (t : Tally)
    (w : List LogWarning)
    (h : (read_plan_file g (Artifact.zipWithTfplan p) m).2 = Except.ok (t, w)) :
    t = (record_changes (zero_tally m) p.resource_changes).summary := by
  simp only [read_plan_file, parse_from_string] at h
  split at h
  · simp at h
  · split at h
    · simp at h
    · split at h
      · simp at h
      · split at h
        · simp at h
        · simp only [Except.ok.injEq, Prod.mk.injEq] at h
          exact h.1.symm

/-- When the version is 3, no change is deferred and every action is
recognized, `read_plan_file` returns the aggregated tally together
with the logged warnings. -/
theorem read_plan_ok_of (g p : Plan) (m : String)
    (hv : p.version = 3) (hd : p.deferred_changes = [])
    (hrc : ∀ r ∈ p.resource_changes, recognized r.change.action = true)
    (hrd : ∀ r ∈ p.resource_drift, recognized r.change.action = true) :
    (read_plan_file g (Artifact.zipWithTfplan p) m).2 =
      Except.ok ((record_changes (zero_tally m) p.resource_changes).summary,
        (record_changes (zero_tally m) p.resource_changes).warnings ++
          (warn_if_drift_changes m p.resource_drift).1) := by
  have hstep : (record_changes (zero_tally m) p.resource_changes).exit = none :=
    (record_changes_exit_none_iff _ _).mpr hrc
  have hdrift : (warn_if_drift_changes m p.resource_drift).2 = none :=
    (drift_loop_exit_none_iff m (zero_tally m) p.resource_drift).mpr hrd
  simp only [read_plan_file, parse_from_string, hv, hd]
  simp [hstep, hdrift]

/-- C1: for every recognized action value, `handle_action` has exactly
the policy-table effect on the tally — NO-OP changes nothing, CREATE
adds one to `create`, UPDATE adds one to `update`, DELETE and
DELETE-THEN-CREATE add one to `delete`, and CREATE-THEN-DELETE adds
one to `delete` while logging the non-fatal combined-action warning;
in every case all other counters are unchanged. -/
theorem handle_action_policy (t : Tally) :
    handle_action Action.NOOP t = ⟨t, [], none⟩ ∧
    handle_action Action.CREATE t =
      ⟨{ t with create := t.create + 1 }, [], none⟩ ∧
    handle_action Action.UPDATE t =
      ⟨{ t with update := t.update + 1 }, [], none⟩ ∧
    handle_action Action.DELETE t =
      ⟨{ t with delete := t.delete + 1 }, [], none⟩ ∧
    handle_action Action.DELETE_THEN_CREATE t =
      ⟨{ t with delete := t.delete + 1 }, [], none⟩ ∧
    handle_action Action.CREATE_THEN_DELETE t =
      ⟨{ t with delete := t.delete + 1 }, [LogWarning.combinedAction], none⟩ :=
  ⟨rfl, rfl, rfl, rfl, rfl, rfl⟩

/-- C2: over recognized actions `warn_if_drift_changes` never aborts,
it emits exactly one drift warning per observation whose classified
effect is non-none (its working tally being reset to zero right after
each such observation), and it emits no warning at all when every
observation is a NO-OP. -/
theorem drift_one_warning_per_change (m : String)
    (l : List ResourceInstanceChange)
    (h : ∀ r ∈ l, recognized r.change.action = true) :
    (warn_if_drift_changes m l).2 = none ∧
    (warn_if_drift_changes m l).1.count (LogWarning.drift m) =
      l.countP (fun r => effective r.change.action) ∧
    ((∀ r ∈ l, r.change.action = Action.NOOP) →
      (warn_if_drift_changes m l).1 = []) :=
  drift_loop_zero_spec m l h

/-- Witness for C2: a drift sequence with a single CREATE among NO-OPs
yields exactly one drift warning and no abort. -/
theorem drift_one_warning_per_change_witness :
    (warn_if_drift_changes "bu1/acct1"
        [⟨⟨Action.NOOP⟩⟩, ⟨⟨Action.CREATE⟩⟩, ⟨⟨Action.NOOP⟩⟩]).2 = none ∧
    (warn_if_drift_changes "bu1/acct1"
        [⟨⟨Action.NOOP⟩⟩, ⟨⟨Action.CREATE⟩⟩, ⟨⟨Action.NOOP⟩⟩]).1.count
      (LogWarning.drift "bu1/acct1") = 1 := by
  have h := drift_one_warning_per_change "bu1/acct1"
    [⟨⟨Action.NOOP⟩⟩, ⟨⟨Action.CREATE⟩⟩, ⟨⟨Action.NOOP⟩⟩] (by decide)
  exact ⟨h.1, h.2.1.trans (by decide)⟩

/-- C3: aggregating a sequence of recognized changes from a zero tally
makes `create + update + delete` equal the number of changes whose
action is not NO-OP. -/
theorem tally_sum_counts (m : String) (l : List ResourceInstanceChange)
    (h : ∀ r ∈ l, recognized r.change.action = true) :
    (record_changes (zero_tally m) l).summary.create +
      (record_changes (zero_tally m) l).summary.update +
      (record_changes (zero_tally m) l).summary.delete =
      l.countP (fun r => effective r.change.action) := by
  obtain ⟨-, -, h1, h2, h3⟩ := record_changes_spec (zero_tally m) l h
  rw [h1, h2, h3]
  have hp := count_partition l h
  simp only [zero_tally] at *
  omega

/-- Witness for C3: three changes, one of them NO-OP, sum to 2. -/
theorem tally_sum_counts_witness :
    (record_changes (zero_tally "bu1/acct1")
        [⟨⟨Action.CREATE⟩⟩, ⟨⟨Action.NOOP⟩⟩, ⟨⟨Action.UPDATE⟩⟩]).summary.create +
      (record_changes (zero_tally "bu1/acct1")
        [⟨⟨Action.CREATE⟩⟩, ⟨⟨Action.NOOP⟩⟩, ⟨⟨Action.UPDATE⟩⟩]).summary.update +
      (record_changes (zero_tally "bu1/acct1")
        [⟨⟨Action.CREATE⟩⟩, ⟨⟨Action.NOOP⟩⟩, ⟨⟨Action.UPDATE⟩⟩]).summary.delete
      = 2 := by
  have h := tally_sum_counts "bu1/acct1"
    [⟨⟨Action.CREATE⟩⟩, ⟨⟨Action.NOOP⟩⟩, ⟨⟨Action.UPDATE⟩⟩] (by decide)
  exact h.trans (by decide)

/-- C4 (corrected): for a valid archive with a parseable plan,
`read_plan_file` succeeds iff the version is 3, `deferred_changes` is
empty AND every action in `resource_changes` and `resource_drift` is
recognized; a version other than 3 fails with the unsupported-version
exit, and version 3 with non-empty `deferred_changes` fails with the
unsupported-feature exit. -/
theorem read_plan_success_iff (g p : Plan) (m : String) :
    ((∃ t w, (read_plan_file g (Artifact.zipWithTfplan p) m).2 =
        Except.ok (t, w)) ↔
      (p.version = 3 ∧ p.deferred_changes = [] ∧
        (∀ r ∈ p.resource_changes, recognized r.change.action = true) ∧
        (∀ r ∈ p.resource_drift, recognized r.change.action = true))) ∧
    (p.version ≠ 3 →
      (read_plan_file g (Artifact.zipWithTfplan p) m).2 =
        Except.error (RunError.exit1 (FatalErr.unsupportedVersion p.version))) ∧
    (p.version = 3 → p.deferred_changes ≠ [] →
      (read_plan_file g (Artifact.zipWithTfplan p) m).2 =
        Except.error (RunError.exit1 FatalErr.unsupportedFeature)) := by
  refine ⟨⟨?_, ?_⟩, ?_, ?_⟩
  · rintro ⟨t, w, h⟩
    simp only [read_plan_file, parse_from_string] at h
    split at h
    next hv => simp at h
    next hv =>
      split at h
      next hlen => simp at h
      next hlen =>
        split at h
        next e heq => simp at h
        next heq =>
          split at h
          next e heq2 => simp at h
          next heq2 =>
            exact ⟨by omega, List.length_eq_zero.mp (by omega),
              (record_changes_exit_none_iff _ _).mp heq,
              (drift_loop_exit_none_iff m (zero_tally m) p.resource_drift).mp heq2⟩
  · rintro ⟨hv, hd, hrc, hrd⟩
    exact ⟨_, _, read_plan_ok_of g p m hv hd hrc hrd⟩
  · intro hv
    simp only [read_plan_file, parse_from_string]
    rw [if_pos hv]
  · intro hv hd
    simp only [read_plan_file, parse_from_string]
    rw [if_neg (by simp [hv]), if_pos (List.length_pos.mpr hd)]

/-- Counterexample to C4 as stated: this plan is version 3 with no
deferred changes, yet `read_plan_file` does not succeed — its single
resource change carries an unrecognized action, so the run exits. -/
theorem read_plan_success_iff_cex :
    (Plan.mk 3 [⟨⟨Action.other 2⟩⟩] [] []).version = 3 ∧
    (Plan.mk 3 [⟨⟨Action.other 2⟩⟩] [] []).deferred_changes = [] ∧
    (read_plan_file plan_init
        (Artifact.zipWithTfplan (Plan.mk 3 [⟨⟨Action.other 2⟩⟩] [] []))
        "bu1/acct1").2 =
      Except.error (RunError.exit1 (FatalErr.unknownAction (Action.other 2))) :=
  ⟨rfl, rfl, rfl⟩

/-- Witness for C4: a version-2 plan fails with the
unsupported-version exit. -/
theorem read_plan_success_iff_witness :
    (read_plan_file plan_init (Artifact.zipWithTfplan (Plan.mk 2 [] [] [])) "a").2 =
      Except.error (RunError.exit1 (FatalErr.unsupportedVersion 2)) :=
  (read_plan_success_iff plan_init (Plan.mk 2 [] [] []) "a").2.1 (by decide)

/-- C5 (amended): the report's comparison is a strict total order —
irreflexive, transitive, and total on tallies with distinct account
labels — ordering by descending delete, then descending update, then
descending create, then ascending account; on the spec's example the
sorted output is a, b, c (not b, a, c: accounts ascending break the
delete tie). -/
theorem sort_strict_total_order :
    (∀ x : Tally, ¬ tally_lt x x) ∧
    (∀ x y z : Tally, tally_lt x y → tally_lt y z → tally_lt x z) ∧
    (∀ x y : Tally, x.account ≠ y.account → tally_lt x y ∨ tally_lt y x) ∧
    summary_sort [⟨"b", 0, 0, 2⟩, ⟨"a", 0, 0, 2⟩, ⟨"c", 0, 0, 1⟩] =
      [⟨"a", 0, 0, 2⟩, ⟨"b", 0, 0, 2⟩, ⟨"c", 0, 0, 1⟩] := by
  refine ⟨fun x => key_lt_irrefl _,
    fun x y z h1 h2 => key_lt_trans h1 h2, ?_, by decide⟩
  intro x y hne
  rcases key_lt_trichotomy (sort_key x) (sort_key y) with h | h | h
  · exact Or.inl h
  · exact absurd (String.ext (congrArg (fun k => k.2.2.2) h)) hne
  · exact Or.inr h

/-- Counterexample to C5's example as stated: the tallies b (delete 2),
a (delete 2), c (delete 1) do not sort to the order b, a, c. -/
theorem sort_strict_total_order_cex :
    summary_sort [⟨"b", 0, 0, 2⟩, ⟨"a", 0, 0, 2⟩, ⟨"c", 0, 0, 1⟩] ≠
      [⟨"b", 0, 0, 2⟩, ⟨"a", 0, 0, 2⟩, ⟨"c", 0, 0, 1⟩] := by
  decide

/-- Witness for C5: two tallies with distinct accounts are comparable. -/
theorem sort_strict_total_order_witness :
    tally_lt ⟨"a", 0, 0, 2⟩ ⟨"b", 0, 0, 2⟩ ∨
      tally_lt ⟨"b", 0, 0, 2⟩ ⟨"a", 0, 0, 2⟩ :=
  sort_strict_total_order.2.2.1 ⟨"a", 0, 0, 2⟩ ⟨"b", 0, 0, 2⟩ (by decide)

/-- C6: every action value outside the known enumeration makes
classification exit the run fatally with the tally untouched, and the
aggregation loop stops right there — an unrecognized action is never
silently ignored. -/
theorem unknown_action_fatal (c : Nat) (t : Tally)
    (rest : List ResourceInstanceChange) :
    handle_action (Action.other c) t =
      ⟨t, [], some (RunError.exit1 (FatalErr.unknownAction (Action.other c)))⟩ ∧
    record_changes t (⟨⟨Action.other c⟩⟩ :: rest) =
      ⟨t, [], some (RunError.exit1 (FatalErr.unknownAction (Action.other c)))⟩ :=
  ⟨rfl, rfl⟩

/-- C7: over recognized actions, aggregation does not abort, the final
tally is invariant under permutation of the input sequence, and each
counter equals its start value plus the number of elements feeding it
— every element contributes exactly once. -/
theorem record_changes_perm_invariant (t : Tally)
    (l₁ l₂ : List ResourceInstanceChange) (hp : l₁.Perm l₂)
    (h : ∀ r ∈ l₁, recognized r.change.action = true) :
    (record_changes t l₁).exit = none ∧
    (record_changes t l₁).summary = (record_changes t l₂).summary ∧
    (record_changes t l₁).summary.create =
      t.create + l₁.countP (fun r => adds_create r.change.action) ∧
    (record_changes t l₁).summary.update =
      t.update + l₁.countP (fun r => adds_update r.change.action) ∧
    (record_changes t l₁).summary.delete =
      t.delete + l₁.countP (fun r => adds_delete r.change.action) := by
  have h₂ : ∀ r ∈ l₂, recognized r.change.action = true :=
    fun r hr => h r (hp.mem_iff.mpr hr)
  obtain ⟨e1, a1, c1, u1, d1⟩ := record_changes_spec t l₁ h
  obtain ⟨e2, a2, c2, u2, d2⟩ := record_changes_spec t l₂ h₂
  refine ⟨e1, tally_eq_of_fields _ _ ?_ ?_ ?_ ?_, c1, u1, d1⟩
  · rw [a1, a2]
  · rw [c1, c2, hp.countP_eq]
  · rw [u1, u2, hp.countP_eq]
  · rw [d1, d2, hp.countP_eq]

/-- Witness for C7: swapping two changes leaves the tally unchanged. -/
theorem record_changes_perm_invariant_witness :
    (record_changes (zero_tally "a")
        [⟨⟨Action.CREATE⟩⟩, ⟨⟨Action.DELETE⟩⟩]).summary =
      (record_changes (zero_tally "a")
        [⟨⟨Action.DELETE⟩⟩, ⟨⟨Action.CREATE⟩⟩]).summary :=
  (record_changes_perm_invariant (zero_tally "a")
    [⟨⟨Action.CREATE⟩⟩, ⟨⟨Action.DELETE⟩⟩]
    [⟨⟨Action.DELETE⟩⟩, ⟨⟨Action.CREATE⟩⟩] (by decide) (by decide)).2.1

/-- C8: the tally returned by `read_plan_file` is determined solely by
`resource_changes` (and the account marker): whatever the drift
observations are, a successful run publishes exactly the tally that
`record_changes` built, so two runs differing only in drift publish
the same counters. -/
theorem tally_unaffected_by_drift (g g' p : Plan)
    (d d' : List ResourceInstanceChange) (m : String)
    (t t' : Tally) (w w' : List LogWarning)
    (h : (read_plan_file g
        (Artifact.zipWithTfplan { p with resource_drift := d }) m).2 =
      Except.ok (t, w))
    (h' : (read_plan_file g'
        (Artifact.zipWithTfplan { p with resource_drift := d' }) m).2 =
      Except.ok (t', w')) :
    t = (record_changes (zero_tally m) p.resource_changes).summary ∧ t' = t := by
  have e1 := read_plan_ok_elim g _ m t w h
  have e2 := read_plan_ok_elim g' _ m t' w' h'
  exact ⟨e1, e2.trans e1.symm⟩

/-- Witness for C8: a plan with one CREATE change publishes the tally
(create 1) whether its drift list is [DELETE] or empty. -/
theorem tally_unaffected_by_drift_witness :
    (⟨"a", 1, 0, 0⟩ : Tally) =
      (record_changes (zero_tally "a") [⟨⟨Action.CREATE⟩⟩]).summary ∧
    (⟨"a", 1, 0, 0⟩ : Tally) = ⟨"a", 1, 0, 0⟩ :=
  tally_unaffected_by_drift plan_init plan_init
    (Plan.mk 3 [⟨⟨Action.CREATE⟩⟩] [] []) [⟨⟨Action.DELETE⟩⟩] [] "a"
    ⟨"a", 1, 0, 0⟩ ⟨"a", 1, 0, 0⟩ [LogWarning.drift "a"] [] rfl rfl

/-- C9: processing is pairwise non-interfering despite the shared
module-level plan message — the outcome for an artifact does not
depend on the plan state left behind by any earlier artifact, because
the parse fully replaces that state; in particular processing after
any first artifact equals processing alone. -/
theorem read_plan_state_noninterference (g g' : Plan) (a₁ a₂ : Artifact)
    (m₁ m₂ : String) :
    (read_plan_file g a₂ m₂).2 = (read_plan_file g' a₂ m₂).2 ∧
    (read_plan_file (read_plan_file g a₁ m₁).1 a₂ m₂).2 =
      (read_plan_file plan_init a₂ m₂).2 := by
  constructor <;> cases a₂ <;> rfl

/-- C10: a valid zip archive without a `tfplan` entry makes
`read_plan_file` fail through the unhandled KeyError of
`zip_file.open`, not through the handled not-a-valid-archive exit. -/
theorem missing_tfplan_uncaught (g : Plan) (m : String) :
    read_plan_file g Artifact.zipMissingTfplan m =
      (g, Except.error RunError.uncaughtKeyError) ∧
    (read_plan_file g Artifact.zipMissingTfplan m).2 ≠
      Except.error (RunError.exit1 FatalErr.malformedContainer) :=
  ⟨rfl, by simp [read_plan_file]⟩

end TfSummary
